import Mathlib

/-!
Verification of the borderzero/discovery orchestration core:
the inclusion/exclusion tag filter, the Result accumulator,
the one-off and continuous runners, and the composite discoverer.
-/

namespace Discovery

/-! ### Tag filtering, from src/utils/kv_filtering.go

A Go `map[string][]string` is embedded as `Option KVFilter` where `none`
is the nil map and `some l` a non-nil map with entry list `l` (Go map keys
are unique; none of the facts below needs that, since the loops in the
source scan every entry). A Go `map[string]string` of candidate key-value
pairs is embedded as a `List (String × String)`.
-/

abbrev KVFilter := List (String × List String)

/-- Embeds `kvMatchesFilter` (src/utils/kv_filtering.go, lines 44-64):
true iff some filter entry has the given key and either an empty value
list (wildcard) or a value list containing the given value. The Go loop
returns true at the first such entry and otherwise keeps scanning, which
is exactly `List.any`. -/
def kvMatchesFilter (key value : String) (filter : KVFilter) : Bool :=
  filter.any fun fe => key == fe.1 && (fe.2.isEmpty || fe.2.any fun fv => value == fv)

/-- Embeds `KVMatchesFilters` (src/utils/kv_filtering.go, lines 5-40).
Note the second loop of the source passes `inclusion`, not `exclusion`,
to `kvMatchesFilter`; the embedding reproduces that faithfully
(`inclusion.getD []` is that loop ranging over a possibly-nil map). -/
def KVMatchesFilters (kv : List (String × String))
    (inclusion exclusion : Option KVFilter) : Bool :=
  let included :=
    match inclusion with
    | none => true
    | some inc => kv.any fun p => kvMatchesFilter p.1 p.2 inc
  let excluded :=
    match exclusion with
    | none => false
    | some _ => kv.any fun p => kvMatchesFilter p.1 p.2 (inclusion.getD [])
  included && !excluded

/-- Modelled from the spec: the intended filter semantics of spec sections
3 and 8 — a candidate is included if inclusion is unset or some pair
matches a rule in the inclusion map, excluded if exclusion is set and some
pair matches a rule in the *exclusion* map, and the final decision is
included AND NOT excluded. This differs from `KVMatchesFilters` (the code)
only in the map the exclusion loop consults. -/
def KVMatchesFiltersIntended (kv : List (String × String))
    (inclusion exclusion : Option KVFilter) : Bool :=
  let included :=
    match inclusion with
    | none => true
    | some inc => kv.any fun p => kvMatchesFilter p.1 p.2 inc
  let excluded :=
    match exclusion with
    | none => false
    | some exc => kv.any fun p => kvMatchesFilter p.1 p.2 exc
  included && !excluded

end Discovery

namespace Discovery

/-- C1: the claim says that with inclusion unset and exclusion set to a map
matched by some pair of kv, `KVMatchesFilters` returns false. The code
instead tests exclusion candidates against the inclusion map, so with
kv = {a: b}, inclusion = nil, exclusion = {a: [b]} it returns true, while
the intended semantics modelled from the spec returns false. -/
theorem C1_exclusion_checked_against_inclusion_map :
    KVMatchesFilters [("a", "b")] none (some [("a", ["b"])]) = true ∧
    KVMatchesFiltersIntended [("a", "b")] none (some [("a", ["b"])]) = false := by
  constructor <;> rfl

/-- C7: for inclusion = {env: [prod]}, exclusion = {team: []} and candidate
tags {env: prod, team: x}, `KVMatchesFilters` returns false. -/
theorem C7_literal_scenario_excluded :
    KVMatchesFilters [("env", "prod"), ("team", "x")]
      (some [("env", ["prod"])]) (some [("team", [])]) = false := by
  rfl

/-- C8: if the inclusion filter maps some key of the candidate set to an
empty value list, the candidate satisfies the inclusion side regardless of
that key's value and of the other keys, so with no exclusion filter set
`KVMatchesFilters` returns true. -/
theorem C8_inclusion_wildcard (kv : List (String × String))
    (inc : KVFilter) (K v : String)
    (hkv : (K, v) ∈ kv) (hinc : (K, ([] : List String)) ∈ inc) :
    KVMatchesFilters kv (some inc) none = true := by
  have hmatch : kvMatchesFilter K v inc = true := by
    unfold kvMatchesFilter
    rw [List.any_eq_true]
    exact ⟨(K, []), hinc, by simp⟩
  have hany : kv.any (fun p => kvMatchesFilter p.1 p.2 inc) = true := by
    rw [List.any_eq_true]
    exact ⟨(K, v), hkv, hmatch⟩
  show (kv.any fun p => kvMatchesFilter p.1 p.2 inc) && !false = true
  rw [hany]
  rfl

/-- Witness for C8 at kv = {env: x}, inclusion = {env: []}. -/
theorem C8_inclusion_wildcard_witness :
    ("env", "x") ∈ [(("env" : String), ("x" : String))] ∧
    ("env", ([] : List String)) ∈ [(("env" : String), ([] : List String))] ∧
    KVMatchesFilters [("env", "x")] (some [("env", [])]) none = true :=
  ⟨by decide, by decide,
    C8_inclusion_wildcard [("env", "x")] [("env", [])] "env" "x"
      (by decide) (by decide)⟩

/-- C10: the code reads the exclusion argument only to test it against nil,
so any two non-nil exclusion maps yield the same output for every candidate
set and every inclusion map. -/
theorem C10_exclusion_content_ignored (kv : List (String × String))
    (inclusion : Option KVFilter) (e1 e2 : KVFilter) :
    KVMatchesFilters kv inclusion (some e1) =
      KVMatchesFilters kv inclusion (some e2) := by
  rfl

/-! ### Result, from src/result.go (variant at lines 62-114)

Go `time.Time` is embedded as a `Nat` instant; the instant 0 plays the
role of `time.Time`'s zero value ("unset"). `time.Now()` is a `now`
argument. The `sync.Mutex` only serializes the mutators; each mutator's
effect under the lock is the pure state transformation embedded here.
A `Resource` is carried by the core untouched; only its `resource_type`
discriminator is embedded, the per-provider detail payloads are never
read by the orchestration core. -/

abbrev Time := Nat

structure Metadata where
  discovererId : String
  startedAt : Time
  endedAt : Time
  deriving Repr, DecidableEq

structure Resource where
  resourceType : String
  deriving Repr, DecidableEq

structure Result where
  resources : List Resource
  metadata : Metadata
  errors : List String
  warnings : List String
  deriving Repr, DecidableEq

/-- Embeds `NewResult`: empty collections, discoverer id and start time
recorded, end time left at the zero value. -/
def NewResult (discovererId : String) (now : Time) : Result :=
  { resources := []
    metadata := { discovererId := discovererId, startedAt := now, endedAt := 0 }
    errors := []
    warnings := [] }

/-- Embeds `Result.Done`: sets the end time to the current time. -/
def Result.Done (r : Result) (now : Time) : Result :=
  { r with metadata := { r.metadata with endedAt := now } }

/-- Embeds `Result.AddResources` (variadic append). -/
def Result.AddResources (r : Result) (resources : List Resource) : Result :=
  { r with resources := r.resources ++ resources }

/-- Embeds `Result.AddError`. -/
def Result.AddError (r : Result) (err : String) : Result :=
  { r with errors := r.errors ++ [err] }

/-- Embeds `Result.AddErrorf`, which is `AddError` of the
`fmt.Sprintf` output; the formatted string is taken as the argument. -/
def Result.AddErrorf (r : Result) (formatted : String) : Result :=
  r.AddError formatted

/-- Embeds `Result.AddWarning`. -/
def Result.AddWarning (r : Result) (warn : String) : Result :=
  { r with warnings := r.warnings ++ [warn] }

/-- Embeds `Result.AddWarningf`, `AddWarning` of the `fmt.Sprintf`
output. -/
def Result.AddWarningf (r : Result) (formatted : String) : Result :=
  r.AddWarning formatted

/-- One call to any of the five collection mutators of `Result`. -/
inductive MutOp where
  | addResources (rs : List Resource)
  | addError (e : String)
  | addErrorf (e : String)
  | addWarning (w : String)
  | addWarningf (w : String)

def applyMut (r : Result) : MutOp → Result
  | .addResources rs => r.AddResources rs
  | .addError e => r.AddError e
  | .addErrorf e => r.AddErrorf e
  | .addWarning w => r.AddWarning w
  | .addWarningf w => r.AddWarningf w

def applyMuts (r : Result) (ops : List MutOp) : Result :=
  ops.foldl applyMut r

theorem applyMut_metadata (r : Result) (op : MutOp) :
    (applyMut r op).metadata = r.metadata := by
  cases op <;> rfl

theorem applyMuts_metadata (r : Result) (ops : List MutOp) :
    (applyMuts r ops).metadata = r.metadata := by
  induction ops generalizing r with
  | nil => rfl
  | cons op ops ih =>
      show (applyMuts (applyMut r op) ops).metadata = r.metadata
      rw [ih, applyMut_metadata]

/-! ### The continuous runner's per-discoverer loop,
from `runContinuously` (src/unnamed/part_018, lines 14-57)

Before the loop, `runContinuously` arms a ticker at the configured
interval, increments the inner wait group and launches the initial pass.
Each later iteration of the `select` loop handles one event; a
`ctx.Done()` event ends the loop, so a loop execution is a fold of the
handler over the list of events handled before the context became done.
The embedded state records the data the handlers touch: the stored
interval, the ticker's current period, how often the ticker was reset,
how often `innerWg.Add(1)` ran, and how many passes (`go runOnce`) were
launched. -/

structure LoopState where
  interval : Time
  tickerPeriod : Time
  tickerResets : Nat
  wgAdds : Nat
  launches : Nat
  deriving Repr, DecidableEq

/-- One event handled by the `select` loop: an interval update read from
`intervalC`, a manual trigger read from `triggerC` (in both, `ok` is false
when the channel is closed and the handler does nothing), or a ticker
fire. -/
inductive LoopEvent where
  | intervalUpdate (newInterval : Time) (ok : Bool)
  | trigger (ok : Bool)
  | tick
  deriving Repr, DecidableEq

/-- Embeds the three non-terminating `select` branches of
`runContinuously`. The trigger branch launches `go runOnce` without a
matching `innerWg.Add(1)`, exactly as the source does. -/
def loopStep (s : LoopState) : LoopEvent → LoopState
  | .intervalUpdate n ok =>
      if ok then
        { s with interval := n, tickerPeriod := n,
                 tickerResets := s.tickerResets + 1 }
      else s
  | .trigger ok =>
      if ok then
        { s with tickerPeriod := s.interval,
                 tickerResets := s.tickerResets + 1,
                 launches := s.launches + 1 }
      else s
  | .tick =>
      { s with wgAdds := s.wgAdds + 1, launches := s.launches + 1 }

/-- The state after the pre-loop setup of `runContinuously`: ticker armed
at the configured interval, one wait-group increment, one pass launched. -/
def initLoopState (interval : Time) : LoopState :=
  { interval := interval, tickerPeriod := interval, tickerResets := 0,
    wgAdds := 1, launches := 1 }

/-- The loop state of `runContinuously`, started with the given interval,
after handling the given events (the context becoming done ends the
fold). -/
def runContinuouslyLoop (interval : Time) (events : List LoopEvent) : LoopState :=
  events.foldl loopStep (initLoopState interval)

theorem runContinuouslyLoop_append (interval : Time)
    (t : List LoopEvent) (e : LoopEvent) :
    runContinuouslyLoop interval (t ++ [e]) =
      loopStep (runContinuouslyLoop interval t) e := by
  unfold runContinuouslyLoop
  rw [List.foldl_append]
  rfl

end Discovery

namespace Discovery

/-- C9: a fresh Result's end timestamp is the zero value; every sequence
of collection mutators leaves the metadata (discoverer id, start, end) of
a fresh Result untouched, so the end timestamp stays unset until `Done`;
and each individual mutator appends only to its own collection, leaving
the metadata and the other collections of any Result unchanged. -/
theorem C9_mutators_frame (id : String) (now : Time)
    (ops : List MutOp) (r : Result) :
    (NewResult id now).metadata.endedAt = 0 ∧
    (applyMuts (NewResult id now) ops).metadata = (NewResult id now).metadata ∧
    (∀ op, (applyMut r op).metadata = r.metadata) ∧
    (∀ rs, (r.AddResources rs).errors = r.errors ∧
      (r.AddResources rs).warnings = r.warnings) ∧
    (∀ e, (r.AddError e).resources = r.resources ∧
      (r.AddError e).warnings = r.warnings) ∧
    (∀ e, (r.AddErrorf e).resources = r.resources ∧
      (r.AddErrorf e).warnings = r.warnings) ∧
    (∀ w, (r.AddWarning w).resources = r.resources ∧
      (r.AddWarning w).errors = r.errors) ∧
    (∀ w, (r.AddWarningf w).resources = r.resources ∧
      (r.AddWarningf w).errors = r.errors) :=
  ⟨rfl, applyMuts_metadata _ ops, applyMut_metadata r,
    fun _ => ⟨rfl, rfl⟩, fun _ => ⟨rfl, rfl⟩, fun _ => ⟨rfl, rfl⟩,
    fun _ => ⟨rfl, rfl⟩, fun _ => ⟨rfl, rfl⟩⟩

/-- C5: after any prior trace, handling an interval-update message
replaces the stored interval with the received value, resets the ticker to
the new period, and launches no pass (the pass count and the wait-group
count are unchanged by that step). -/
theorem C5_interval_update_no_extra_pass (interval : Time)
    (t : List LoopEvent) (n : Time) :
    (runContinuouslyLoop interval (t ++ [.intervalUpdate n true])).interval = n ∧
    (runContinuouslyLoop interval (t ++ [.intervalUpdate n true])).tickerPeriod = n ∧
    (runContinuouslyLoop interval (t ++ [.intervalUpdate n true])).tickerResets =
      (runContinuouslyLoop interval t).tickerResets + 1 ∧
    (runContinuouslyLoop interval (t ++ [.intervalUpdate n true])).launches =
      (runContinuouslyLoop interval t).launches ∧
    (runContinuouslyLoop interval (t ++ [.intervalUpdate n true])).wgAdds =
      (runContinuouslyLoop interval t).wgAdds := by
  rw [runContinuouslyLoop_append]
  exact ⟨rfl, rfl, rfl, rfl, rfl⟩

/-- C6: after any prior trace, handling a manual-trigger message resets
the ticker to the currently stored interval (deferring the next regular
tick by one full period) and launches exactly one extra pass beyond what
the trace had launched, while the stored interval is unchanged. -/
theorem C6_trigger_resets_and_launches_one (interval : Time)
    (t : List LoopEvent) :
    (runContinuouslyLoop interval (t ++ [.trigger true])).tickerPeriod =
      (runContinuouslyLoop interval t).interval ∧
    (runContinuouslyLoop interval (t ++ [.trigger true])).tickerResets =
      (runContinuouslyLoop interval t).tickerResets + 1 ∧
    (runContinuouslyLoop interval (t ++ [.trigger true])).launches =
      (runContinuouslyLoop interval t).launches + 1 ∧
    (runContinuouslyLoop interval (t ++ [.trigger true])).interval =
      (runContinuouslyLoop interval t).interval := by
  rw [runContinuouslyLoop_append]
  exact ⟨rfl, rfl, rfl, rfl⟩

/-- C2: the claim requires that every launched pass is awaited and that
the wait-group bookkeeping never faults, but the trigger branch of
`runContinuously` launches `go runOnce` without a matching
`innerWg.Add(1)` (unlike the initial and ticker launches). After one
manual trigger the loop has launched 2 passes while the inner wait group
was only ever incremented once, so `innerWg.Wait()` does not cover the
triggered pass (its Result can be discarded at shutdown) and the
triggered pass's `Done` has no matching `Add` (a `sync.WaitGroup`
fault). -/
theorem C2_triggered_pass_not_registered :
    (runContinuouslyLoop 5 [.trigger true]).launches = 2 ∧
    (runContinuouslyLoop 5 [.trigger true]).wgAdds = 1 := by
  constructor <;> rfl

/-! ### Composite discoverer merge

No merging composite is present under src/ — every variant there streams
child output over channels (src/unnamed/part_004, part_013,
src/discoverers/multiple_upstream.go) — so the merge is modelled from the
spec and settled against that model. -/

/-- Merges one child Result into the accumulating composite Result using
the Result mutators: append the child's resources, then each of its
errors, then each of its warnings. -/
def mergeChildResult (acc child : Result) : Result :=
  child.warnings.foldl Result.AddWarning
    (child.errors.foldl Result.AddError (acc.AddResources child.resources))

/-- Modelled from the spec: `MultipleUpstreamDiscoverer.Discover` (spec
section 4.6), whose current merging form is not under src/. It fans out to
the child discoverers and merges all child Results into the single Result
it returns: the union of all resources, all errors and all warnings,
with the metadata's discoverer id identifying the composite. The children
are embedded by the Results their `Discover` calls return. -/
def MultipleUpstreamDiscover (compositeId : String) (now : Time)
    (childResults : List Result) : Result :=
  childResults.foldl mergeChildResult (NewResult compositeId now)

theorem foldl_AddError_eq (es : List String) (acc : Result) :
    es.foldl Result.AddError acc = { acc with errors := acc.errors ++ es } := by
  induction es generalizing acc with
  | nil => rw [List.foldl_nil, List.append_nil]
  | cons e es ih =>
      rw [List.foldl_cons, ih]
      simp [Result.AddError]

theorem foldl_AddWarning_eq (ws : List String) (acc : Result) :
    ws.foldl Result.AddWarning acc = { acc with warnings := acc.warnings ++ ws } := by
  induction ws generalizing acc with
  | nil => rw [List.foldl_nil, List.append_nil]
  | cons w ws ih =>
      rw [List.foldl_cons, ih]
      simp [Result.AddWarning]

theorem mergeChildResult_eq (acc child : Result) :
    mergeChildResult acc child =
      { acc with resources := acc.resources ++ child.resources,
                 errors := acc.errors ++ child.errors,
                 warnings := acc.warnings ++ child.warnings } := by
  unfold mergeChildResult
  rw [foldl_AddError_eq, foldl_AddWarning_eq]
  rfl

theorem foldl_mergeChildResult_eq (children : List Result) (acc : Result) :
    children.foldl mergeChildResult acc =
      { acc with
          resources := acc.resources ++ (children.map fun c => c.resources).flatten,
          errors := acc.errors ++ (children.map fun c => c.errors).flatten,
          warnings := acc.warnings ++ (children.map fun c => c.warnings).flatten } := by
  induction children generalizing acc with
  | nil => simp
  | cons c children ih =>
      rw [List.foldl_cons, ih, mergeChildResult_eq]
      simp [List.append_assoc]

end Discovery

namespace Discovery

/-! ### One-off engine, from src/engines/engine_oneoff.go and
`runOnce` (src/unnamed/part_018, lines 62-70)

`Run` launches one goroutine per configured discoverer — `wg.Add(1)`
right before each launch — where each goroutine performs
`results <- discoverer.Discover(ctx)` and then its deferred `wg.Done()`;
the main body runs `wg.Wait()` and then `close(results)` (both deferred,
in that order). The execution is embedded as a small-step transition
system over all interleavings: a state holds the goroutines that have not
yet sent (each identified by the Result its `Discover` call returns),
whether the channel has been closed, and the sequence of channel events
so far. A goroutine may fire at any time; the close fires only once every
goroutine has sent and signalled the wait group. -/

/-- A Discoverer as the engines schedule it, embedded by the Result its
single blocking `Discover(ctx)` call returns; `Ctx` is an opaque context
token. -/
abbrev Ctx := Nat

structure Discoverer where
  discover : Ctx → Result

structure OneOffEngine where
  discoverers : List Discoverer

/-- An event on the `results` channel, as the caller observes it. -/
inductive ChanEvent where
  | send (r : Result)
  | close
  deriving DecidableEq

structure OneOffState where
  pending : List Result
  closed : Bool
  history : List ChanEvent

/-- The state of `OneOffEngine.Run` once its launch loop has run: one
pending send per configured discoverer, channel open, nothing sent. -/
def OneOffEngine.initState (e : OneOffEngine) (ctx : Ctx) : OneOffState :=
  { pending := e.discoverers.map fun d => d.discover ctx
    closed := false
    history := [] }

/-- One scheduler step of `OneOffEngine.Run`: any not-yet-sent goroutine
may deliver its Result (then signal the wait group), and once no
goroutine is pending — `wg.Wait()` has returned — the deferred
`close(results)` fires. -/
inductive OneOffStep : OneOffState → OneOffState → Prop where
  | send (l1 l2 : List Result) (r : Result) (c : Bool) (h : List ChanEvent) :
      OneOffStep ⟨l1 ++ r :: l2, c, h⟩ ⟨l1 ++ l2, c, h ++ [.send r]⟩
  | close (h : List ChanEvent) :
      OneOffStep ⟨[], false, h⟩ ⟨[], true, h ++ [.close]⟩

abbrev OneOffReaches : OneOffState → OneOffState → Prop :=
  Relation.ReflTransGen OneOffStep

/-- Run invariant: the history is the sends performed so far (followed by
the close, once it happened), the sent and pending Results together are a
permutation of the configured ones, and the channel closes only with
nothing pending. -/
def OneOffInv (ds : List Result) (s : OneOffState) : Prop :=
  ∃ sent : List Result,
    s.history = sent.map ChanEvent.send ++
      (if s.closed then [ChanEvent.close] else []) ∧
    (sent ++ s.pending).Perm ds ∧
    (s.closed = true → s.pending = [])

theorem oneOffInv_step (ds : List Result) (s1 s2 : OneOffState)
    (hstep : OneOffStep s1 s2) (hinv : OneOffInv ds s1) : OneOffInv ds s2 := by
  obtain ⟨sent, hhist, hperm, hclosed⟩ := hinv
  cases hstep with
  | send l1 l2 r c h =>
      have hc : c = false := by
        cases c
        · rfl
        · simp at hclosed
      subst hc
      simp only [if_neg Bool.false_ne_true] at hhist
      refine ⟨sent ++ [r], ?_, ?_, by simp⟩
      · simp only [List.map_append, List.append_nil] at hhist ⊢
        simp [hhist]
      · have h1 : ((sent ++ [r]) ++ (l1 ++ l2) : List Result)
            = sent ++ (r :: (l1 ++ l2)) := by simp
        rw [h1]
        have h2 : (sent ++ (r :: (l1 ++ l2)) : List Result).Perm
            (sent ++ (l1 ++ r :: l2)) :=
          List.Perm.append_left sent List.perm_middle.symm
        exact h2.trans (by simpa using hperm)
  | close h =>
      simp only [if_neg Bool.false_ne_true] at hhist
      refine ⟨sent, ?_, ?_, fun _ => rfl⟩
      · simp [hhist]
      · simpa using hperm

theorem oneOffInv_reaches (ds : List Result) (s1 s2 : OneOffState)
    (hreach : OneOffReaches s1 s2) (hinv : OneOffInv ds s1) : OneOffInv ds s2 := by
  induction hreach with
  | refl => exact hinv
  | tail _ hstep ih => exact oneOffInv_step ds _ _ hstep ih

theorem oneOffInv_init (e : OneOffEngine) (ctx : Ctx) :
    OneOffInv (e.discoverers.map fun d => d.discover ctx) (e.initState ctx) :=
  ⟨[], by simp [OneOffEngine.initState], by simp [OneOffEngine.initState],
    by simp [OneOffEngine.initState]⟩

theorem oneOffFinal_state (s : OneOffState) (hfinal : ∀ s2, ¬ OneOffStep s s2) :
    s.pending = [] ∧ s.closed = true := by
  obtain ⟨pending, closed, history⟩ := s
  cases pending with
  | cons x xs => exact absurd (OneOffStep.send [] xs x closed history) (hfinal _)
  | nil =>
      cases closed with
      | false => exact absurd (OneOffStep.close history) (hfinal _)
      | true => exact ⟨rfl, rfl⟩

theorem oneOffStep_pending_or_open (s1 s2 : OneOffState)
    (hstep : OneOffStep s1 s2) :
    s1.pending ≠ [] ∨ s1.closed = false := by
  cases hstep with
  | send l1 l2 r c hh => left; simp
  | close hh => right; rfl

theorem closedState_no_step (h : List ChanEvent) (s2 : OneOffState) :
    ¬ OneOffStep ⟨[], true, h⟩ s2 := by
  intro hstep
  rcases oneOffStep_pending_or_open _ _ hstep with hne | hcl
  · exact hne rfl
  · simp at hcl

end Discovery

namespace Discovery

/-- C4: in every maximal interleaving of `OneOffEngine.Run` with N
configured discoverers, the channel history is exactly N sends — one per
discoverer, each carrying the Result that discoverer's single `Discover`
call returned, in some completion order — followed by the single close,
so a caller ranging over the channel sees all N Results and then natural
closure. -/
theorem C4_oneoff_run_delivers_all (e : OneOffEngine) (ctx : Ctx)
    (s : OneOffState)
    (hreach : OneOffReaches (e.initState ctx) s)
    (hfinal : ∀ s2, ¬ OneOffStep s s2) :
    ∃ sent : List Result,
      s.history = sent.map ChanEvent.send ++ [ChanEvent.close] ∧
      sent.Perm (e.discoverers.map fun d => d.discover ctx) := by
  obtain ⟨hp, hc⟩ := oneOffFinal_state s hfinal
  obtain ⟨sent, hhist, hperm, -⟩ :=
    oneOffInv_reaches _ _ _ hreach (oneOffInv_init e ctx)
  refine ⟨sent, ?_, ?_⟩
  · rw [hhist, hc, if_pos rfl]
  · rw [hp, List.append_nil] at hperm
    exact hperm

end Discovery

namespace Discovery

def discWithResource : Discoverer :=
  ⟨fun _ => (NewResult "alpha" 0).AddResources [⟨"docker_container"⟩]⟩

def discWithError : Discoverer :=
  ⟨fun _ => (NewResult "beta" 0).AddError "boom"⟩

def oneOffExample : OneOffEngine := ⟨[discWithResource, discWithError]⟩

def oneOffExampleFinal : OneOffState :=
  ⟨[], true,
    [.send (discWithResource.discover 0), .send (discWithError.discover 0),
     .close]⟩

/-- Witness for C4: a concrete two-discoverer engine, the schedule that
sends both Results and then closes, checked maximal, with the theorem's
conclusion at that input. -/
theorem C4_oneoff_run_delivers_all_witness :
    (OneOffReaches (oneOffExample.initState 0) oneOffExampleFinal ∧
      ∀ s2, ¬ OneOffStep oneOffExampleFinal s2) ∧
    ∃ sent : List Result,
      oneOffExampleFinal.history = sent.map ChanEvent.send ++ [ChanEvent.close] ∧
      sent.Perm (oneOffExample.discoverers.map fun d => d.discover 0) := by
  have hstep1 : OneOffStep (oneOffExample.initState 0)
      ⟨[discWithError.discover 0], false, [.send (discWithResource.discover 0)]⟩ :=
    OneOffStep.send [] [discWithError.discover 0] (discWithResource.discover 0)
      false []
  have hstep2 : OneOffStep
      ⟨[discWithError.discover 0], false, [.send (discWithResource.discover 0)]⟩
      ⟨[], false,
        [.send (discWithResource.discover 0), .send (discWithError.discover 0)]⟩ :=
    OneOffStep.send [] [] (discWithError.discover 0) false
      [.send (discWithResource.discover 0)]
  have hstep3 : OneOffStep
      ⟨[], false,
        [.send (discWithResource.discover 0), .send (discWithError.discover 0)]⟩
      oneOffExampleFinal :=
    OneOffStep.close
      [.send (discWithResource.discover 0), .send (discWithError.discover 0)]
  have hreach : OneOffReaches (oneOffExample.initState 0) oneOffExampleFinal :=
    ((Relation.ReflTransGen.refl.tail hstep1).tail hstep2).tail hstep3
  have hfinal : ∀ s2, ¬ OneOffStep oneOffExampleFinal s2 :=
    fun s2 => closedState_no_step _ s2
  exact ⟨⟨hreach, hfinal⟩,
    C4_oneoff_run_delivers_all oneOffExample 0 oneOffExampleFinal hreach hfinal⟩

end Discovery

namespace Discovery

/-- C3: for every list of child Results, the composite merge produces a
single Result holding the union (concatenation) of all children's
resources, of all their errors and of all their warnings, and its
metadata's discoverer id is the composite's own id. -/
theorem C3_composite_merge (compositeId : String) (now : Time)
    (children : List Result) :
    (MultipleUpstreamDiscover compositeId now children).resources
        = (children.map fun c => c.resources).flatten ∧
    (MultipleUpstreamDiscover compositeId now children).errors
        = (children.map fun c => c.errors).flatten ∧
    (MultipleUpstreamDiscover compositeId now children).warnings
        = (children.map fun c => c.warnings).flatten ∧
    (MultipleUpstreamDiscover compositeId now children).metadata.discovererId
        = compositeId := by
  unfold MultipleUpstreamDiscover
  rw [foldl_mergeChildResult_eq]
  exact ⟨rfl, rfl, rfl, rfl⟩

end Discovery
